import Mathlib

/-!
Verification development for the ml-service detection-fusion pipeline
(`services/ensemble_aggregator.py`, `services/gpt_vision_client.py`,
`services/image_preprocessor.py`).

The Python code is shallowly embedded: detections are records, Python
floats are modelled as exact rationals, Python `int()` truncation toward
zero is `Int.tdiv`, and fallible code returns `Except` or an explicit
result variant.  Each definition mirrors the lines of the source file it
is named after; deviations forced by the embedding are noted in place.
-/

/-- JSON values as produced by `json.loads`: null, booleans, numbers
(exact rationals standing for Python ints/floats), strings, arrays and
objects (key/value lists; duplicate keys resolved last-wins, as Python
dicts built by `json.loads` keep the last occurrence). -/
inductive Json where
  | null
  | bool (b : Bool)
  | num (q : ℚ)
  | str (s : String)
  | arr (elems : List Json)
  | obj (fields : List (String × Json))

/-- Bounding box `{'x', 'y', 'width', 'height'}` with integer pixel
coordinates, as produced by `YOLODetector.postprocess` and
`GPTVisionClient.parse_response` (both convert every field with `int`). -/
structure BBox where
  x : ℤ
  y : ℤ
  width : ℤ
  height : ℤ

/-- A detection dictionary.  `cls` is the `'class'` key (a Lean keyword,
hence the shortened field name); `source` and `description` are optional
keys, `none` meaning the key is absent from the dict. `description`
stores the raw JSON value, as `parse_response` copies it verbatim. -/
structure Det where
  cls : String
  confidence : ℚ
  bbox : BBox
  source : Option String := none
  description : Option Json := none

/-- `GPTVisionClient.DEFECT_CLASSES` (gpt_vision_client.py lines 23-36). -/
def DEFECT_CLASSES : List String :=
  ["damaged_rivet", "missing_rivet", "filiform_corrosion", "missing_panel",
   "paint_detachment", "scratch", "composite_damage", "random_damage",
   "burn_mark", "scorch_mark", "metal_fatigue", "crack"]

/-- Lookup of a key in a JSON object's field list, last occurrence
winning, matching Python dict semantics after `json.loads`. -/
def objFind (fields : List (String × Json)) (k : String) : Option Json :=
  fields.foldl (fun acc kv => if kv.1 = k then some kv.2 else acc) none

/-- Value of a decimal digit character. -/
def digitVal (c : Char) : Option ℕ :=
  if c.isDigit then some (c.toNat - 48) else none

/-- Value of an all-digit character list (empty list counts as 0; any
non-digit yields `none`). -/
def digitsOnlyVal (cs : List Char) : Option ℕ :=
  cs.foldl
    (fun acc c =>
      match acc, digitVal c with
      | some n, some d => some (10 * n + d)
      | _, _ => none)
    (some 0)

/-- Python `float(s)` on a string, restricted to the plain decimal forms
`[+|-] digits [. digits]`.  Exponent notation, inf/nan, surrounding
whitespace and underscores also succeed in Python but are outside the
modelled input space; they are mapped to `none` here. -/
def pyFloatOfString (s : String) : Option ℚ :=
  let signed : ℚ × List Char :=
    match s.toList with
    | '-' :: cs => (-1, cs)
    | '+' :: cs => (1, cs)
    | cs => (1, cs)
  let intPart := signed.2.takeWhile (fun c => c ≠ '.')
  let rest := signed.2.dropWhile (fun c => c ≠ '.')
  match rest with
  | [] =>
    if intPart = [] then none
    else (digitsOnlyVal intPart).map (fun n => signed.1 * n)
  | _ :: fracPart =>
    if intPart = [] ∧ fracPart = [] then none
    else
      match digitsOnlyVal intPart, digitsOnlyVal fracPart with
      | some n, some f =>
        some (signed.1 * ((n : ℚ) + (f : ℚ) / (10 : ℚ) ^ fracPart.length))
      | _, _ => none

/-- Python `int(s)` on a string, restricted to `[+|-] digits`
(underscore separators, which Python also accepts, are out of scope). -/
def pyIntOfString (s : String) : Option ℤ :=
  let signed : ℤ × List Char :=
    match s.toList with
    | '-' :: cs => (-1, cs)
    | '+' :: cs => (1, cs)
    | cs => (1, cs)
  if signed.2 = [] then none
  else (digitsOnlyVal signed.2).map (fun n => signed.1 * n)

/-- Python `float(v)` on a JSON value: numbers pass through, booleans
become 0/1, numeric strings are parsed; anything else raises (`none`). -/
def pyFloat : Json → Option ℚ
  | Json.num q => some q
  | Json.bool b => some (if b then 1 else 0)
  | Json.str s => pyFloatOfString s
  | _ => none

/-- Python `int(v)` on a JSON value: numbers are truncated toward zero
(`int()` on a float), booleans become 0/1, digit strings are parsed;
anything else raises (`none`). -/
def pyInt : Json → Option ℤ
  | Json.num q => some (Int.tdiv q.num (q.den : ℤ))
  | Json.bool b => some (if b then 1 else 0)
  | Json.str s => pyIntOfString s
  | _ => none

/-- The bbox construction of `parse_response` (lines 173-178):
`det['bbox']` must be a dict (otherwise `.get` raises an
AttributeError, `none` here), each of x/y/width/height defaulting to 0
and converted with `int` (a failing conversion also raises). -/
def bboxFields : Json → Option BBox
  | Json.obj bf =>
    match pyInt ((objFind bf "x").getD (Json.num 0)),
          pyInt ((objFind bf "y").getD (Json.num 0)),
          pyInt ((objFind bf "width").getD (Json.num 0)),
          pyInt ((objFind bf "height").getD (Json.num 0)) with
    | some xv, some yv, some wv, some hv => some ⟨xv, yv, wv, hv⟩
    | _, _, _, _ => none
  | _ => none

/-- Outcome of the per-element body of `parse_response`'s loop
(lines 154-185): the element is skipped by a `continue`, formatted into
a detection, or raises an exception (which aborts the whole loop). -/
inductive ElemResult where
  | skipped
  | parsed (d : Det)
  | raised

/-- One iteration of `parse_response`'s loop: non-dict elements and
elements missing `class`/`confidence`/`bbox` are skipped; a `class`
value not among `DEFECT_CLASSES` (any non-string value included, since
`x not in list` is true for them) is skipped; otherwise the detection is
built, raising if `float(confidence)` or the bbox conversion fails. -/
def processElem (j : Json) : ElemResult :=
  match j with
  | Json.obj fields =>
    match objFind fields "class", objFind fields "confidence", objFind fields "bbox" with
    | some classJson, some confJson, some bboxJson =>
      match classJson with
      | Json.str className =>
        if className ∈ DEFECT_CLASSES then
          match pyFloat confJson, bboxFields bboxJson with
          | some conf, some bb =>
            ElemResult.parsed
              { cls := className, confidence := conf, bbox := bb,
                source := none, description := objFind fields "description" }
          | _, _ => ElemResult.raised
        else ElemResult.skipped
      | _ => ElemResult.skipped
    | _, _, _ => ElemResult.skipped
  | _ => ElemResult.skipped

/-- The detection an element contributes, if any. -/
def elemDet (j : Json) : Option Det :=
  match processElem j with
  | ElemResult.parsed d => some d
  | _ => none

/-- The loop of `parse_response` over the decoded array: skipped
elements contribute nothing, parsed ones are appended in order, and a
raising element aborts with an exception. -/
def runElems : List Json → Except Unit (List Det)
  | [] => Except.ok []
  | j :: rest =>
    match processElem j with
    | ElemResult.raised => Except.error ()
    | ElemResult.skipped => runElems rest
    | ElemResult.parsed d =>
      match runElems rest with
      | Except.ok ds => Except.ok (d :: ds)
      | Except.error e => Except.error e

/-- `GPTVisionClient.parse_response` (lines 121-196), modelled from the
result of `json.loads` on the markdown-stripped text: `Except.error`
stands for a `json.JSONDecodeError` (caught, returning `[]`).  A decoded
array is folded by `runElems`, any exception in the loop being caught by
the outer handler (returning `[]`).  A non-array top level yields `[]`:
iterating a dict visits its string keys and a string its characters (all
skipped as non-dicts), and iterating a number/bool/null raises a
TypeError that the handler catches. -/
def parse_response (input : Except Unit Json) : List Det :=
  match input with
  | Except.error _ => []
  | Except.ok (Json.arr elems) =>
    match runElems elems with
    | Except.ok ds => ds
    | Except.error _ => []
  | Except.ok (Json.obj _) => []
  | Except.ok (Json.str _) => []
  | Except.ok _ => []

/-- `EnsembleAggregator.__init__` configuration (defaults 0.6 / 0.4 /
0.5 / 0.4). -/
structure Config where
  yoloWeight : ℚ
  gptWeight : ℚ
  iouThreshold : ℚ
  nmsThreshold : ℚ

/-- The configuration the service constructs by default. -/
def defaultConfig : Config :=
  { yoloWeight := 6/10, gptWeight := 4/10, iouThreshold := 5/10, nmsThreshold := 4/10 }

/-- The retention threshold hard-coded at ensemble_aggregator.py lines
227 and 236: an unmatched detection is kept only when its confidence is
strictly greater than 0.7. -/
def retainThreshold : ℚ := 7/10

/-- `EnsembleAggregator.calculate_iou` (lines 36-73).  Integer corner
arithmetic, exact rational division in place of Python float division. -/
def calculate_iou (bbox1 bbox2 : BBox) : ℚ :=
  let x1_1 := bbox1.x
  let y1_1 := bbox1.y
  let x2_1 := bbox1.x + bbox1.width
  let y2_1 := bbox1.y + bbox1.height
  let x1_2 := bbox2.x
  let y1_2 := bbox2.y
  let x2_2 := bbox2.x + bbox2.width
  let y2_2 := bbox2.y + bbox2.height
  let xLeft := max x1_1 x1_2
  let yTop := max y1_1 y1_2
  let xRight := min x2_1 x2_2
  let yBottom := min y2_1 y2_2
  if xRight < xLeft ∨ yBottom < yTop then 0
  else
    let intersectionArea := (xRight - xLeft) * (yBottom - yTop)
    let bbox1Area := bbox1.width * bbox1.height
    let bbox2Area := bbox2.width * bbox2.height
    let unionArea := bbox1Area + bbox2Area - intersectionArea
    if 0 < unionArea then (intersectionArea : ℚ) / (unionArea : ℚ) else 0

/-- The intersection area computed inside `calculate_iou` (0 whenever
the early-return guard of line 60 fires). -/
def intersection_area (bbox1 bbox2 : BBox) : ℤ :=
  let xLeft := max bbox1.x bbox2.x
  let yTop := max bbox1.y bbox2.y
  let xRight := min (bbox1.x + bbox1.width) (bbox2.x + bbox2.width)
  let yBottom := min (bbox1.y + bbox1.height) (bbox2.y + bbox2.height)
  if xRight < xLeft ∨ yBottom < yTop then 0
  else (xRight - xLeft) * (yBottom - yTop)

/-- The union area of line 68. -/
def union_area (bbox1 bbox2 : BBox) : ℤ :=
  bbox1.width * bbox1.height + bbox2.width * bbox2.height - intersection_area bbox1 bbox2

/-- The per-round keep test inside `apply_nms` (lines 100-107): a
remaining detection survives the round when its class differs from the
kept detection, or its IoU against it is below the NMS threshold. -/
def nmsKeep (cfg : Config) (current det : Det) : Bool :=
  if det.cls = current.cls
  then decide (calculate_iou current.bbox det.bbox < cfg.nmsThreshold)
  else true

/-- Stable descending insertion by confidence: the new element goes in
front of the first element whose confidence is not larger, so
earlier-listed elements precede later ones on ties. -/
def insertByConf (a : Det) : List Det → List Det
  | [] => [a]
  | b :: bs => if a.confidence < b.confidence then b :: insertByConf a bs else a :: b :: bs

/-- The `sorted(detections, key=confidence, reverse=True)` of line 89.
Python's sort is stable, and a stable descending sort's output is
uniquely determined, so this insertion sort computes the same list. -/
def sortByConfDesc : List Det → List Det
  | [] => []
  | a :: l => insertByConf a (sortByConfDesc l)

/-- The while-loop of `apply_nms` (lines 93-109), with an explicit fuel
so the definition is structural: each round keeps the head (highest
confidence remaining) and filters the rest.  Each round consumes at
least one element, so fuel equal to the list length (as supplied by
`apply_nms`) always suffices and the fuel-exhausted branch is never
taken from `apply_nms`. -/
def nmsRounds (cfg : Config) : ℕ → List Det → List Det
  | _, [] => []
  | 0, _ :: _ => []
  | fuel + 1, current :: rest =>
    current :: nmsRounds cfg fuel (rest.filter (nmsKeep cfg current))

/-- `EnsembleAggregator.apply_nms` (lines 75-112). -/
def apply_nms (cfg : Config) (detections : List Det) : List Det :=
  nmsRounds cfg detections.length (sortByConfDesc detections)

/-- `EnsembleAggregator.merge_detections` (lines 114-146): weighted
confidence sum, bbox coordinates averaged and truncated toward zero by
Python `int()` (`Int.tdiv` here), class from the first (YOLO) detection
and source `ensemble`.  The merged dict carries no description key. -/
def merge_detections (cfg : Config) (det1 det2 : Det) : Det :=
  { cls := det1.cls
    confidence := det1.confidence * cfg.yoloWeight + det2.confidence * cfg.gptWeight
    bbox :=
      { x := Int.tdiv (det1.bbox.x + det2.bbox.x) 2
        y := Int.tdiv (det1.bbox.y + det2.bbox.y) 2
        width := Int.tdiv (det1.bbox.width + det2.bbox.width) 2
        height := Int.tdiv (det1.bbox.height + det2.bbox.height) 2 }
    source := some "ensemble"
    description := none }

/-- The inner loop of `aggregate` (lines 206-213) scanning the GPT list
with `enumerate`: track the best strictly-improving same-class IoU seen
so far together with the detection and index achieving it. -/
def findBestAux (a : Det) : List Det → ℕ → ℚ × Option (Det × ℕ) → ℚ × Option (Det × ℕ)
  | [], _, acc => acc
  | b :: bs, j, acc =>
    findBestAux a bs (j + 1)
      (if a.cls = b.cls ∧ acc.1 < calculate_iou a.bbox b.bbox
       then (calculate_iou a.bbox b.bbox, some (b, j))
       else acc)

/-- Best match of one YOLO detection against the whole GPT list:
`(best_iou, (best_match, best_match_idx))`, starting from
`best_iou = 0.0`, `best_match = None`. -/
def findBest (a : Det) (B : List Det) : ℚ × Option (Det × ℕ) :=
  findBestAux a B 0 (0, none)

/-- Line 216: the pair is a match when the best IoU strictly exceeds
the threshold.  When the threshold is nonnegative (it is 0.5 in every
configuration the service builds) a best IoU above it implies a best
match exists, so the `Option.map`-free form below coincides with the
code, which would dereference `best_match` unconditionally. -/
def matchOf (cfg : Config) (B : List Det) (a : Det) : Option (Det × ℕ) :=
  let fb := findBest a B
  if cfg.iouThreshold < fb.1 then fb.2 else none

/-- The matched (yolo, gpt, gpt-index) triples produced by the matching
loop of `aggregate` (lines 201-221), one per YOLO detection whose best
IoU clears the threshold, in YOLO input order. -/
def matchedPairs (cfg : Config) (B : List Det) : List Det → List (Det × Det × ℕ)
  | [] => []
  | a :: rest =>
    match matchOf cfg B a with
    | some bj => (a, bj.1, bj.2) :: matchedPairs cfg B rest
    | none => matchedPairs cfg B rest

/-- The merged ensemble detections appended at line 219. -/
def mergedPhase (cfg : Config) (A B : List Det) : List Det :=
  (matchedPairs cfg B A).map (fun p => merge_detections cfg p.1 p.2.1)

/-- The contents of `matched_gpt` (line 221): the best-match index of
every matched YOLO detection.  The matching loop itself never consults
this set, so the same GPT index can occur several times. -/
def matchedGpt (cfg : Config) (A B : List Det) : List ℕ :=
  (matchedPairs cfg B A).map (fun p => p.2.2)

/-- Membership of a YOLO detection's index in `matched_yolo` depends
only on the detection's value: its best IoU exceeds the threshold. -/
def isMatchedA (cfg : Config) (B : List Det) (a : Det) : Bool :=
  decide (cfg.iouThreshold < (findBest a B).1)

/-- The `det['source'] = ...` tagging of lines 190-193. -/
def tagSource (s : String) (d : Det) : Det := { d with source := some s }

/-- Tag every YOLO detection with source `'yolo'`. -/
def tagYolo (A : List Det) : List Det := A.map (tagSource "yolo")

/-- Tag every GPT detection with source `'gpt'`. -/
def tagGpt (B : List Det) : List Det := B.map (tagSource "gpt")

/-- Unmatched-YOLO retention (lines 224-230): detections whose best IoU
did not clear the threshold and whose confidence exceeds 0.7. -/
def unmatchedYoloKept (cfg : Config) (A B : List Det) : List Det :=
  A.filter (fun a => !isMatchedA cfg B a && decide (retainThreshold < a.confidence))

/-- Unmatched-GPT retention loop (lines 233-239), scanning with
`enumerate` and skipping indices recorded in `matched_gpt`. -/
def unmatchedGptAux (matched : List ℕ) : List Det → ℕ → List Det
  | [], _ => []
  | b :: bs, j =>
    if j ∉ matched ∧ retainThreshold < b.confidence
    then b :: unmatchedGptAux matched bs (j + 1)
    else unmatchedGptAux matched bs (j + 1)

/-- The retained unmatched GPT detections. -/
def unmatchedGptKept (cfg : Config) (A B : List Det) : List Det :=
  unmatchedGptAux (matchedGpt cfg A B) B 0

/-- The `ensemble_detections` pool handed to NMS at line 242: merged
detections, then retained unmatched YOLO, then retained unmatched GPT. -/
def candidatePool (cfg : Config) (A B : List Det) : List Det :=
  mergedPhase cfg A B ++ unmatchedYoloKept cfg A B ++ unmatchedGptKept cfg A B

/-- `EnsembleAggregator.aggregate` (lines 175-254): tag sources, build
the candidate pool, deduplicate with NMS. -/
def aggregate (cfg : Config) (yoloResults gptResults : List Det) : List Det :=
  apply_nms cfg (candidatePool cfg (tagYolo yoloResults) (tagGpt gptResults))

/-- `ImagePreprocessor.validate_dimensions` (image_preprocessor.py lines
82-110) on the decoded image's height and width, with the configured
bounds as arguments (`min_size`, `max_size`; defaults 640 and 4096).
`Except.error` stands for the raised `ValueError`. -/
def validate_dimensions (minSize maxSize height width : ℕ) : Except String Bool :=
  if height < minSize ∨ width < minSize then
    Except.error "Image dimensions too small"
  else if maxSize < height ∨ maxSize < width then
    Except.error "Image dimensions too large"
  else
    Except.ok true

/-- The sharpness term of `calculate_quality_score` (line 227), as a
function of the Laplacian variance computed by cv2 (a variance, hence
nonnegative for every image). -/
def sharpness_score (laplacianVar : ℚ) : ℚ :=
  min (laplacianVar / 1000) 1 * 50

/-- The brightness term (lines 230-233), as a function of the mean gray
value computed by numpy (in [0, 255] for an 8-bit image). -/
def brightness_score (meanBrightness : ℚ) : ℚ :=
  (1 - |meanBrightness - 128| / 128) * 50

/-- `ImagePreprocessor.calculate_quality_score` (lines 212-241): the
unweighted sum of the two terms.  The cv2/numpy statistics themselves
are abstracted as the two rational inputs. -/
def calculate_quality_score (laplacianVar meanBrightness : ℚ) : ℚ :=
  sharpness_score laplacianVar + brightness_score meanBrightness

/-- Concrete sample detection: YOLO, class crack, confidence 0.8,
box at the origin.  Used as an input to the concrete instances below. -/
def c1YoloA : Det := { cls := "crack", confidence := 8/10, bbox := ⟨0, 0, 10, 10⟩ }

/-- Concrete sample detection: YOLO, class crack, same size shifted one
pixel right (IoU 9/11 against `c1Gpt`, above the 0.5 threshold). -/
def c1YoloB : Det := { cls := "crack", confidence := 8/10, bbox := ⟨1, 0, 10, 10⟩ }

/-- Concrete sample detection: GPT, class crack, same box as `c1YoloA`. -/
def c1Gpt : Det := { cls := "crack", confidence := 8/10, bbox := ⟨0, 0, 10, 10⟩ }

/-- Concrete sample detection with confidence 0.85 and no source key. -/
def c2Det : Det := { cls := "crack", confidence := 85/100, bbox := ⟨0, 0, 10, 10⟩ }

/-- Concrete YOLO detection for the merge example (confidence 0.85). -/
def c4Yolo : Det := { cls := "crack", confidence := 85/100, bbox := ⟨0, 0, 10, 10⟩ }

/-- Concrete GPT detection for the merge example (confidence 0.80,
box shifted one pixel so the summed x coordinates are odd). -/
def c4Gpt : Det := { cls := "crack", confidence := 8/10, bbox := ⟨1, 0, 10, 10⟩ }

/-- Concrete unmatched GPT detection with confidence 0.75 > 0.7. -/
def c5Gpt : Det := { cls := "missing_rivet", confidence := 75/100, bbox := ⟨0, 0, 5, 5⟩ }

/-- Concrete detection of a class unique in its pool. -/
def c6KeptDet : Det := { cls := "scratch", confidence := 9/10, bbox := ⟨0, 0, 10, 10⟩ }

/-- Concrete detection fully overlapping `c6KeptDet` but of a different
class. -/
def c6OtherDet : Det := { cls := "crack", confidence := 8/10, bbox := ⟨0, 0, 10, 10⟩ }

/-- JSON element missing the `class` key (dropped by `parse_response`). -/
def c7Drop : Json :=
  Json.obj [("confidence", Json.num (mkRat 1 1)), ("bbox", Json.obj [])]

/-- Well-formed JSON detection element. -/
def c7Good : Json :=
  Json.obj
    [("class", Json.str "crack"), ("confidence", Json.num (mkRat 9 10)),
     ("bbox", Json.obj
        [("x", Json.num (mkRat 1 1)), ("y", Json.num (mkRat 2 1)),
         ("width", Json.num (mkRat 3 1)), ("height", Json.num (mkRat 4 1))])]

/-- JSON element whose `confidence` is null: it passes the key and class
checks, then `float(None)` raises a TypeError inside the loop. -/
def c7Bad : Json :=
  Json.obj [("class", Json.str "crack"), ("confidence", Json.null), ("bbox", Json.obj [])]

/-- The detection `parse_response` formats from `c7Good`. -/
def c7GoodDet : Det :=
  { cls := "crack", confidence := mkRat 9 10, bbox := ⟨1, 2, 3, 4⟩ }

theorem insertByConf_perm (a : Det) (l : List Det) : (insertByConf a l).Perm (a :: l) := by
  induction l with
  | nil => exact List.Perm.refl _
  | cons b bs ih =>
    by_cases h : a.confidence < b.confidence
    · simpa [insertByConf, h] using (ih.cons b).trans (List.Perm.swap a b bs)
    · simp [insertByConf, h]

theorem sortByConfDesc_perm (l : List Det) : (sortByConfDesc l).Perm l := by
  induction l with
  | nil => exact List.Perm.refl _
  | cons a l ih => exact (insertByConf_perm a (sortByConfDesc l)).trans (ih.cons a)

theorem insertByConf_sorted (a : Det) (l : List Det)
    (h : l.Pairwise (fun x y => y.confidence ≤ x.confidence)) :
    (insertByConf a l).Pairwise (fun x y => y.confidence ≤ x.confidence) := by
  induction l with
  | nil => simp [insertByConf]
  | cons b bs ih =>
    rw [List.pairwise_cons] at h
    by_cases hab : a.confidence < b.confidence
    · rw [insertByConf, if_pos hab, List.pairwise_cons]
      refine ⟨fun x hx => ?_, ih h.2⟩
      rcases List.mem_cons.mp ((insertByConf_perm a bs).mem_iff.mp hx) with hxa | hxbs
      · exact hxa ▸ le_of_lt hab
      · exact h.1 x hxbs
    · rw [insertByConf, if_neg hab, List.pairwise_cons]
      refine ⟨fun x hx => ?_, List.pairwise_cons.mpr h⟩
      rcases List.mem_cons.mp hx with hxb | hxbs
      · exact hxb ▸ le_of_not_lt hab
      · exact le_trans (h.1 x hxbs) (le_of_not_lt hab)

theorem sortByConfDesc_sorted (l : List Det) :
    (sortByConfDesc l).Pairwise (fun x y => y.confidence ≤ x.confidence) := by
  induction l with
  | nil => simp [sortByConfDesc]
  | cons a l ih => exact insertByConf_sorted a _ ih

theorem nmsRounds_subset (cfg : Config) :
    ∀ (fuel : ℕ) (l : List Det), nmsRounds cfg fuel l ⊆ l := by
  intro fuel
  induction fuel with
  | zero => intro l; cases l <;> simp [nmsRounds]
  | succ fuel ih =>
    intro l
    cases l with
    | nil => simp [nmsRounds]
    | cons c rest =>
      rw [nmsRounds]
      exact List.cons_subset_cons c (fun x hx => List.filter_subset' rest (ih _ hx))

theorem nmsRounds_pairwise (cfg : Config) :
    ∀ (fuel : ℕ) (l : List Det),
      l.Pairwise (fun x y => y.confidence ≤ x.confidence) →
      (nmsRounds cfg fuel l).Pairwise (fun x y => y.confidence ≤ x.confidence) := by
  intro fuel
  induction fuel with
  | zero => intro l h; cases l <;> simp [nmsRounds]
  | succ fuel ih =>
    intro l h
    cases l with
    | nil => simp [nmsRounds]
    | cons c rest =>
      rw [List.pairwise_cons] at h
      rw [nmsRounds, List.pairwise_cons]
      refine ⟨fun x hx => ?_, ih _ (h.2.filter _)⟩
      exact h.1 x (List.filter_subset' rest (nmsRounds_subset cfg fuel _ hx))

theorem nmsRounds_complete (cfg : Config) :
    ∀ (fuel : ℕ) (l : List Det), l.length ≤ fuel →
      ∀ d ∈ l, d ∉ nmsRounds cfg fuel l →
        ∃ k, k ∈ nmsRounds cfg fuel l ∧ k.cls = d.cls ∧
          cfg.nmsThreshold ≤ calculate_iou k.bbox d.bbox := by
  intro fuel
  induction fuel with
  | zero =>
    intro l hl d hd _
    rw [Nat.le_zero, List.length_eq_zero] at hl
    subst hl
    exact absurd hd (List.not_mem_nil d)
  | succ fuel ih =>
    intro l hl d hd hout
    cases l with
    | nil => exact absurd hd (List.not_mem_nil d)
    | cons c rest =>
      rw [nmsRounds] at hout ⊢
      rcases List.mem_cons.mp hd with hdc | hdrest
      · exact absurd (hdc ▸ List.mem_cons_self c _) hout
      · by_cases hm : d ∈ rest.filter (nmsKeep cfg c)
        · have hlen : (rest.filter (nmsKeep cfg c)).length ≤ fuel :=
            le_trans (List.length_filter_le _ _) (Nat.succ_le_succ_iff.mp hl)
          have hd2 : d ∉ nmsRounds cfg fuel (rest.filter (nmsKeep cfg c)) :=
            fun hmem => hout (List.mem_cons_of_mem c hmem)
          obtain ⟨k, hk1, hk2, hk3⟩ := ih _ hlen d hm hd2
          exact ⟨k, List.mem_cons_of_mem c hk1, hk2, hk3⟩
        · have hkeep : nmsKeep cfg c d = false := by
            rcases Bool.eq_false_or_eq_true (nmsKeep cfg c d) with h | h
            · exact absurd (List.mem_filter.mpr ⟨hdrest, h⟩) hm
            · exact h
          rw [nmsKeep] at hkeep
          by_cases hcls : d.cls = c.cls
          · rw [if_pos hcls, decide_eq_false_iff_not, not_lt] at hkeep
            exact ⟨c, List.mem_cons_self c _, hcls.symm, hkeep⟩
          · rw [if_neg hcls] at hkeep
            exact absurd hkeep (by simp)

theorem apply_nms_subset (cfg : Config) (l : List Det) : apply_nms cfg l ⊆ l := by
  intro x hx
  exact (sortByConfDesc_perm l).mem_iff.mp
    (nmsRounds_subset cfg l.length (sortByConfDesc l) hx)

theorem apply_nms_sorted (cfg : Config) (l : List Det) :
    (apply_nms cfg l).Pairwise (fun x y => y.confidence ≤ x.confidence) :=
  nmsRounds_pairwise cfg l.length (sortByConfDesc l) (sortByConfDesc_sorted l)

theorem apply_nms_complete (cfg : Config) (l : List Det) (d : Det)
    (hd : d ∈ l) (hout : d ∉ apply_nms cfg l) :
    ∃ k, k ∈ apply_nms cfg l ∧ k.cls = d.cls ∧
      cfg.nmsThreshold ≤ calculate_iou k.bbox d.bbox := by
  have hlen : (sortByConfDesc l).length ≤ l.length := le_of_eq (sortByConfDesc_perm l).length_eq
  exact nmsRounds_complete cfg l.length (sortByConfDesc l) hlen d
    ((sortByConfDesc_perm l).mem_iff.mpr hd) hout

theorem findBestAux_isSome (a : Det) :
    ∀ (l : List Det) (j : ℕ) (acc : ℚ × Option (Det × ℕ)),
      (0 < acc.1 → acc.2.isSome) →
      0 < (findBestAux a l j acc).1 → (findBestAux a l j acc).2.isSome := by
  intro l
  induction l with
  | nil => intro j acc h; exact h
  | cons b bs ih =>
    intro j acc h
    rw [findBestAux]
    apply ih
    by_cases hc : a.cls = b.cls ∧ acc.1 < calculate_iou a.bbox b.bbox
    · rw [if_pos hc]; intro _; rfl
    · rw [if_neg hc]; exact h

theorem findBest_pos_some (a : Det) (B : List Det) (h : 0 < (findBest a B).1) :
    ∃ b j, (findBest a B).2 = some (b, j) := by
  have hs : (findBest a B).2.isSome := by
    exact findBestAux_isSome a B 0 (0, none) (fun h0 => absurd h0 (lt_irrefl 0)) h
  obtain ⟨⟨b, j⟩, hbj⟩ := Option.isSome_iff_exists.mp hs
  exact ⟨b, j, hbj⟩

theorem matchOf_eq_some (cfg : Config) (B : List Det) (a : Det) (bj : Det × ℕ) :
    matchOf cfg B a = some bj ↔
      cfg.iouThreshold < (findBest a B).1 ∧ (findBest a B).2 = some bj := by
  unfold matchOf
  by_cases h : cfg.iouThreshold < (findBest a B).1 <;> simp [h]

theorem matchedPairs_map_fst (cfg : Config) (B : List Det) :
    ∀ A : List Det,
      (matchedPairs cfg B A).map (fun p => p.1)
        = A.filter (fun a => (matchOf cfg B a).isSome) := by
  intro A
  induction A with
  | nil => rfl
  | cons a rest ih =>
    rw [matchedPairs]
    cases h : matchOf cfg B a with
    | some bj => simp [List.filter_cons, h, ih]
    | none => simp [List.filter_cons, h, ih]

theorem matchedPairs_mem (cfg : Config) (B : List Det) :
    ∀ (A : List Det) (p : Det × Det × ℕ), p ∈ matchedPairs cfg B A →
      matchOf cfg B p.1 = some (p.2.1, p.2.2) ∧ p.1 ∈ A := by
  intro A
  induction A with
  | nil => intro p hp; exact absurd hp (List.not_mem_nil p)
  | cons a rest ih =>
    intro p hp
    rw [matchedPairs] at hp
    cases h : matchOf cfg B a with
    | some bj =>
      rw [h] at hp
      rcases List.mem_cons.mp hp with rfl | hp2
      · exact ⟨h, List.mem_cons_self a rest⟩
      · exact ⟨(ih p hp2).1, List.mem_cons_of_mem a (ih p hp2).2⟩
    | none =>
      rw [h] at hp
      exact ⟨(ih p hp).1, List.mem_cons_of_mem a (ih p hp).2⟩

theorem matchedPairs_map_fst_matched (cfg : Config) (B : List Det) (A : List Det)
    (h0 : 0 ≤ cfg.iouThreshold) :
    (matchedPairs cfg B A).map (fun p => p.1) = A.filter (fun a => isMatchedA cfg B a) := by
  rw [matchedPairs_map_fst]
  apply List.filter_congr
  intro a _
  unfold matchOf isMatchedA
  by_cases h : cfg.iouThreshold < (findBest a B).1
  · obtain ⟨b, j, hbj⟩ := findBest_pos_some a B (lt_of_le_of_lt h0 h)
    simp [h, hbj]
  · simp [h]

theorem mergedPhase_source (cfg : Config) (A B : List Det) (d : Det)
    (h : d ∈ mergedPhase cfg A B) : d.source = some "ensemble" := by
  rw [mergedPhase] at h
  obtain ⟨p, _, rfl⟩ := List.mem_map.mp h
  rfl

theorem unmatchedYoloKept_mem (cfg : Config) (A B : List Det) (a : Det) :
    a ∈ unmatchedYoloKept cfg A B ↔
      a ∈ A ∧ isMatchedA cfg B a = false ∧ retainThreshold < a.confidence := by
  simp [unmatchedYoloKept, List.mem_filter, Bool.not_eq_true', and_assoc]

theorem unmatchedGptAux_conf (m : List ℕ) :
    ∀ (l : List Det) (j : ℕ) (d : Det), d ∈ unmatchedGptAux m l j →
      retainThreshold < d.confidence := by
  intro l
  induction l with
  | nil => intro j d h; exact absurd h (List.not_mem_nil d)
  | cons b bs ih =>
    intro j d h
    rw [unmatchedGptAux] at h
    by_cases hc : j ∉ m ∧ retainThreshold < b.confidence
    · rw [if_pos hc] at h
      rcases List.mem_cons.mp h with rfl | h2
      · exact hc.2
      · exact ih _ d h2
    · rw [if_neg hc] at h
      exact ih _ d h

theorem unmatchedGptAux_subset (m : List ℕ) :
    ∀ (l : List Det) (j : ℕ), unmatchedGptAux m l j ⊆ l := by
  intro l
  induction l with
  | nil => intro j; simp [unmatchedGptAux]
  | cons b bs ih =>
    intro j x hx
    rw [unmatchedGptAux] at hx
    by_cases hc : j ∉ m ∧ retainThreshold < b.confidence
    · rw [if_pos hc] at hx
      rcases List.mem_cons.mp hx with rfl | hx2
      · exact List.mem_cons_self x bs
      · exact List.mem_cons_of_mem b (ih _ hx2)
    · rw [if_neg hc] at hx
      exact List.mem_cons_of_mem b (ih _ hx)

theorem unmatchedGptAux_complete (m : List ℕ) :
    ∀ (l : List Det) (j0 k : ℕ) (b : Det),
      l[k]? = some b → (j0 + k) ∉ m → retainThreshold < b.confidence →
      b ∈ unmatchedGptAux m l j0 := by
  intro l
  induction l with
  | nil => intro j0 k b h; simp at h
  | cons c cs ih =>
    intro j0 k b hget hnm hconf
    cases k with
    | zero =>
      have hbc : c = b := by simpa using hget
      subst hbc
      rw [unmatchedGptAux, if_pos ⟨by simpa using hnm, hconf⟩]
      exact List.mem_cons_self c _
    | succ k =>
      have hmem : b ∈ unmatchedGptAux m cs (j0 + 1) := by
        refine ih (j0 + 1) k b (by simpa using hget) ?_ hconf
        have : j0 + 1 + k = j0 + (k + 1) := by omega
        rw [this]
        exact hnm
      rw [unmatchedGptAux]
      by_cases hc : j0 ∉ m ∧ retainThreshold < c.confidence
      · rw [if_pos hc]; exact List.mem_cons_of_mem c hmem
      · rw [if_neg hc]; exact hmem

theorem tagYolo_source (A : List Det) (d : Det) (h : d ∈ tagYolo A) :
    d.source = some "yolo" := by
  obtain ⟨b, _, rfl⟩ := List.mem_map.mp h
  rfl

theorem tagGpt_source (B : List Det) (d : Det) (h : d ∈ tagGpt B) :
    d.source = some "gpt" := by
  obtain ⟨b, _, rfl⟩ := List.mem_map.mp h
  rfl

theorem aggregate_mem_source_or_conf (cfg : Config) (yolo gpt : List Det) (d : Det)
    (h : d ∈ aggregate cfg yolo gpt) :
    d.source = some "ensemble" ∨ retainThreshold < d.confidence := by
  have hpool : d ∈ candidatePool cfg (tagYolo yolo) (tagGpt gpt) :=
    apply_nms_subset cfg _ h
  rw [candidatePool, List.append_assoc] at hpool
  rcases List.mem_append.mp hpool with hm | hrest
  · exact Or.inl (mergedPhase_source cfg _ _ d hm)
  · rcases List.mem_append.mp hrest with hy | hg
    · exact Or.inr ((unmatchedYoloKept_mem cfg _ _ d).mp hy).2.2
    · exact Or.inr (unmatchedGptAux_conf _ _ _ d hg)

theorem runElems_ok (elems : List Json)
    (h : ∀ j ∈ elems, processElem j ≠ ElemResult.raised) :
    runElems elems = Except.ok (elems.filterMap elemDet) := by
  induction elems with
  | nil => rfl
  | cons j rest ih =>
    have hj := h j (List.mem_cons_self j rest)
    have ihr := ih (fun x hx => h x (List.mem_cons_of_mem j hx))
    rw [runElems, List.filterMap_cons]
    cases hpe : processElem j with
    | raised => exact absurd hpe hj
    | skipped => rw [ihr]; simp [elemDet, hpe]
    | parsed d => rw [ihr]; simp [elemDet, hpe]

theorem runElems_raised (elems : List Json)
    (h : ∃ j ∈ elems, processElem j = ElemResult.raised) :
    runElems elems = Except.error () := by
  induction elems with
  | nil => obtain ⟨j, hj, _⟩ := h; exact absurd hj (List.not_mem_nil j)
  | cons j rest ih =>
    rw [runElems]
    cases hpe : processElem j with
    | raised => rfl
    | skipped =>
      apply ih
      obtain ⟨x, hx, hxr⟩ := h
      rcases List.mem_cons.mp hx with rfl | hx2
      · rw [hpe] at hxr; exact absurd hxr (by simp)
      · exact ⟨x, hx2, hxr⟩
    | parsed d =>
      have ihr : runElems rest = Except.error () := by
        apply ih
        obtain ⟨x, hx, hxr⟩ := h
        rcases List.mem_cons.mp hx with rfl | hx2
        · rw [hpe] at hxr; exact absurd hxr (by simp)
        · exact ⟨x, hx2, hxr⟩
      rw [ihr]

theorem calculate_iou_eq (b1 b2 : BBox) :
    calculate_iou b1 b2 =
      if 0 < union_area b1 b2
      then (intersection_area b1 b2 : ℚ) / (union_area b1 b2 : ℚ)
      else 0 := by
  by_cases hg : min (b1.x + b1.width) (b2.x + b2.width) < max b1.x b2.x ∨
      min (b1.y + b1.height) (b2.y + b2.height) < max b1.y b2.y
  · simp only [calculate_iou, intersection_area, union_area, if_pos hg]
    by_cases hu : 0 < b1.width * b1.height + b2.width * b2.height - 0
    · rw [if_pos hu]
      simp
    · rw [if_neg hu]
  · simp only [calculate_iou, intersection_area, union_area, if_neg hg]

/-- C10: the list returned by `aggregate` is globally sorted in
non-increasing order of confidence, because `apply_nms` always keeps the
highest-confidence remaining candidate next. -/
theorem c10_output_sorted (cfg : Config) (yoloResults gptResults : List Det) :
    (aggregate cfg yoloResults gptResults).Pairwise
      (fun x y => y.confidence ≤ x.confidence) :=
  apply_nms_sorted cfg _

/-- C6: in `apply_nms` a remaining detection is discarded in a round
exactly when it has the same class as the kept detection and its IoU
with it is at least the NMS threshold (first conjunct); every detection
dropped by `apply_nms` is suppressed by some same-class kept detection
with IoU at or above the threshold (second conjunct); hence a detection
whose class matches no other detection in the pool is never suppressed,
regardless of overlap (third conjunct). -/
theorem c6_nms_same_class_suppression (cfg : Config) :
    (∀ current d, nmsKeep cfg current d = false ↔
        d.cls = current.cls ∧ cfg.nmsThreshold ≤ calculate_iou current.bbox d.bbox)
    ∧ (∀ (detections : List Det) (d : Det),
        d ∈ detections → d ∉ apply_nms cfg detections →
        ∃ k, k ∈ apply_nms cfg detections ∧ k.cls = d.cls ∧
          cfg.nmsThreshold ≤ calculate_iou k.bbox d.bbox)
    ∧ (∀ (detections : List Det) (d : Det), d ∈ detections →
        (∀ k, k ∈ detections → k.cls = d.cls → k = d) →
        d ∈ apply_nms cfg detections) := by
  refine ⟨?_, fun ds d => apply_nms_complete cfg ds d, ?_⟩
  · intro c d
    by_cases h : d.cls = c.cls <;> simp [nmsKeep, h, not_lt]
  · intro ds d hd huniq
    by_contra hout
    obtain ⟨k, hk1, hk2, _⟩ := apply_nms_complete cfg ds d hd hout
    exact hout (huniq k (apply_nms_subset cfg ds hk1) hk2 ▸ hk1)

/-- Witness for C6: `c6OtherDet` fully overlaps `c6KeptDet` but has a
different class, so it survives NMS. -/
theorem c6_witness : c6OtherDet ∈ apply_nms defaultConfig [c6KeptDet, c6OtherDet] := by
  refine (c6_nms_same_class_suppression defaultConfig).2.2 [c6KeptDet, c6OtherDet]
    c6OtherDet (by simp) ?_
  intro k hk hcls
  rcases List.mem_cons.mp hk with rfl | hk2
  · exact absurd hcls (by simp [c6KeptDet, c6OtherDet])
  · simpa using hk2

/-- C8: `validate_dimensions` succeeds with `True` exactly when both the
width and the height lie within the inclusive range
`[min_size, max_size]`, and raises a ValueError otherwise. -/
theorem c8_validate_dimensions_range (minSize maxSize height width : ℕ) :
    (validate_dimensions minSize maxSize height width = Except.ok true ↔
      minSize ≤ width ∧ width ≤ maxSize ∧ minSize ≤ height ∧ height ≤ maxSize)
    ∧ (¬(minSize ≤ width ∧ width ≤ maxSize ∧ minSize ≤ height ∧ height ≤ maxSize) →
      ∃ msg, validate_dimensions minSize maxSize height width = Except.error msg) := by
  constructor
  · unfold validate_dimensions
    by_cases h1 : height < minSize ∨ width < minSize
    · rw [if_pos h1]
      constructor
      · intro h; exact absurd h (by simp)
      · intro h; omega
    · rw [if_neg h1]
      by_cases h2 : maxSize < height ∨ maxSize < width
      · rw [if_pos h2]
        constructor
        · intro h; exact absurd h (by simp)
        · intro h; omega
      · rw [if_neg h2]
        constructor
        · intro _; omega
        · intro _; rfl
  · intro h
    unfold validate_dimensions
    by_cases h1 : height < minSize ∨ width < minSize
    · exact ⟨_, by rw [if_pos h1]⟩
    · by_cases h2 : maxSize < height ∨ maxSize < width
      · exact ⟨_, by rw [if_neg h1, if_pos h2]⟩
      · exact absurd (by omega) h

/-- Witness for C8: a 700 times 300 image is rejected against the
default bounds 640 and 4096 (height 300 below the minimum). -/
theorem c8_witness : ∃ msg, validate_dimensions 640 4096 300 700 = Except.error msg :=
  (c8_validate_dimensions_range 640 4096 300 700).2 (by omega)

/-- C9: for a nonnegative Laplacian variance and a mean gray value in
[0, 255] (true of every valid decoded 8-bit image), the quality score is
in [0, 100]: the sharpness term lies in [0, 50], the brightness term in
[0, 50], and the total is their unweighted sum. -/
theorem c9_quality_score_bounds (laplacianVar meanBrightness : ℚ)
    (hv : 0 ≤ laplacianVar) (hm0 : 0 ≤ meanBrightness) (hm1 : meanBrightness ≤ 255) :
    0 ≤ calculate_quality_score laplacianVar meanBrightness
    ∧ calculate_quality_score laplacianVar meanBrightness ≤ 100
    ∧ 0 ≤ sharpness_score laplacianVar ∧ sharpness_score laplacianVar ≤ 50
    ∧ 0 ≤ brightness_score meanBrightness ∧ brightness_score meanBrightness ≤ 50
    ∧ calculate_quality_score laplacianVar meanBrightness
        = sharpness_score laplacianVar + brightness_score meanBrightness := by
  have habs : |meanBrightness - 128| ≤ 128 := by
    rw [abs_le]
    constructor <;> linarith
  have habs0 : 0 ≤ |meanBrightness - 128| := abs_nonneg _
  have hs0 : 0 ≤ sharpness_score laplacianVar := by
    unfold sharpness_score
    exact mul_nonneg (le_min (div_nonneg hv (by norm_num)) zero_le_one) (by norm_num)
  have hs1 : sharpness_score laplacianVar ≤ 50 := by
    unfold sharpness_score
    have h := min_le_right (laplacianVar / 1000) 1
    nlinarith
  have hb0 : 0 ≤ brightness_score meanBrightness := by
    unfold brightness_score
    have h : |meanBrightness - 128| / 128 ≤ 1 := by
      rw [div_le_one (by norm_num)]
      exact habs
    nlinarith
  have hb1 : brightness_score meanBrightness ≤ 50 := by
    unfold brightness_score
    have h : 0 ≤ |meanBrightness - 128| / 128 := div_nonneg habs0 (by norm_num)
    nlinarith
  exact ⟨by unfold calculate_quality_score; linarith,
    by unfold calculate_quality_score; linarith, hs0, hs1, hb0, hb1, rfl⟩

/-- Witness for C9 at Laplacian variance 500 and mean gray 128. -/
theorem c9_witness :
    0 ≤ calculate_quality_score 500 128
    ∧ calculate_quality_score 500 128 ≤ 100
    ∧ 0 ≤ sharpness_score 500 ∧ sharpness_score 500 ≤ 50
    ∧ 0 ≤ brightness_score 128 ∧ brightness_score 128 ≤ 50
    ∧ calculate_quality_score 500 128 = sharpness_score 500 + brightness_score 128 :=
  c9_quality_score_bounds 500 128 (by norm_num) (by norm_num) (by norm_num)

theorem matchedPairs_complete (cfg : Config) (B : List Det) :
    ∀ (A : List Det) (a : Det) (bj : Det × ℕ), a ∈ A → matchOf cfg B a = some bj →
      (a, bj.1, bj.2) ∈ matchedPairs cfg B A := by
  intro A
  induction A with
  | nil => intro a bj ha; exact absurd ha (List.not_mem_nil a)
  | cons c rest ih =>
    intro a bj ha hm
    rw [matchedPairs]
    rcases List.mem_cons.mp ha with rfl | ha2
    · rw [hm]
      exact List.mem_cons_self _ _
    · cases h : matchOf cfg B c with
      | some bj2 => exact List.mem_cons_of_mem _ (ih a bj ha2 hm)
      | none => exact ih a bj ha2 hm

/-- C1 (amended): each YOLO detection produces at most one match — the
matched YOLO detections are exactly those whose best IoU clears the
threshold, in input order — and the GPT partner of every match is the
best-IoU same-class candidate over the entire GPT list, chosen without
regard to earlier consumption, so one GPT detection can be the partner
of several matches. -/
theorem c1_matching_consumption (cfg : Config) (A B : List Det)
    (h0 : 0 ≤ cfg.iouThreshold) :
    (matchedPairs cfg B A).map (fun p => p.1) = A.filter (fun a => isMatchedA cfg B a)
    ∧ (∀ p ∈ matchedPairs cfg B A,
        cfg.iouThreshold < (findBest p.1 B).1
        ∧ (findBest p.1 B).2 = some (p.2.1, p.2.2)
        ∧ p.1 ∈ A) := by
  refine ⟨matchedPairs_map_fst_matched cfg B A h0, ?_⟩
  intro p hp
  obtain ⟨hm, hmem⟩ := matchedPairs_mem cfg B A p hp
  rw [matchOf_eq_some] at hm
  exact ⟨hm.1, hm.2, hmem⟩

/-- Counterexample to C1: both YOLO detections match the single GPT
detection (IoU 1 and 9/11, both above 0.5), so `matched_gpt` records
index 0 twice and the matching phase emits two merged ensemble
detections, both consuming the same GPT detection. -/
theorem c1_counterexample :
    matchedGpt defaultConfig (tagYolo [c1YoloA, c1YoloB]) (tagGpt [c1Gpt]) = [0, 0]
    ∧ (mergedPhase defaultConfig (tagYolo [c1YoloA, c1YoloB]) (tagGpt [c1Gpt])).length = 2 := by
  have h1 : matchOf defaultConfig (tagGpt [c1Gpt]) (tagSource "yolo" c1YoloA)
      = some (tagSource "gpt" c1Gpt, 0) := by
    norm_num [matchOf, findBest, findBestAux, calculate_iou, tagGpt, tagSource,
      c1YoloA, c1Gpt, defaultConfig]
  have h2 : matchOf defaultConfig (tagGpt [c1Gpt]) (tagSource "yolo" c1YoloB)
      = some (tagSource "gpt" c1Gpt, 0) := by
    norm_num [matchOf, findBest, findBestAux, calculate_iou, tagGpt, tagSource,
      c1YoloB, c1Gpt, defaultConfig]
  constructor
  · simp [matchedGpt, matchedPairs, tagYolo, h1, h2]
  · simp [mergedPhase, matchedPairs, tagYolo, h1, h2]

/-- Witness for C1 at the default configuration and the concrete lists
of the counterexample. -/
theorem c1_witness :
    (matchedPairs defaultConfig (tagGpt [c1Gpt]) (tagYolo [c1YoloA, c1YoloB])).map
        (fun p => p.1)
      = (tagYolo [c1YoloA, c1YoloB]).filter
          (fun a => isMatchedA defaultConfig (tagGpt [c1Gpt]) a) :=
  (c1_matching_consumption defaultConfig (tagYolo [c1YoloA, c1YoloB]) (tagGpt [c1Gpt])
    (by norm_num [defaultConfig])).1

theorem intersection_area_of_separated (b1 b2 : BBox)
    (hsep : min (b1.x + b1.width) (b2.x + b2.width) ≤ max b1.x b2.x ∨
            min (b1.y + b1.height) (b2.y + b2.height) ≤ max b1.y b2.y) :
    intersection_area b1 b2 = 0 := by
  unfold intersection_area
  by_cases hg : min (b1.x + b1.width) (b2.x + b2.width) < max b1.x b2.x ∨
      min (b1.y + b1.height) (b2.y + b2.height) < max b1.y b2.y
  · rw [if_pos hg]
  · rw [if_neg hg]
    push_neg at hg
    rcases hsep with h | h
    · have hx : min (b1.x + b1.width) (b2.x + b2.width) = max b1.x b2.x :=
        le_antisymm h hg.1
      rw [hx, sub_self, zero_mul]
    · have hy : min (b1.y + b1.height) (b2.y + b2.height) = max b1.y b2.y :=
        le_antisymm h hg.2
      rw [hy, sub_self, mul_zero]

/-- C3 (amended): `calculate_iou` of a box of positive width and height
with itself is 1; two boxes whose intersection is empty (the overlap
degenerates in x or in y) have IoU exactly 0; and a union area of zero
yields 0 rather than an error.  Identical zero-area boxes fall under the
last clause and give 0, not 1. -/
theorem c3_iou_values :
    (∀ b : BBox, 0 < b.width → 0 < b.height → calculate_iou b b = 1)
    ∧ (∀ b1 b2 : BBox,
        (min (b1.x + b1.width) (b2.x + b2.width) ≤ max b1.x b2.x ∨
         min (b1.y + b1.height) (b2.y + b2.height) ≤ max b1.y b2.y) →
        calculate_iou b1 b2 = 0)
    ∧ (∀ b1 b2 : BBox, union_area b1 b2 = 0 → calculate_iou b1 b2 = 0) := by
  refine ⟨?_, ?_, ?_⟩
  · intro b hw hh
    have harea : (0 : ℤ) < b.width * b.height := mul_pos hw hh
    have hng : ¬(b.x + b.width < b.x ∨ b.y + b.height < b.y) := by
      push_neg
      constructor <;> linarith
    simp only [calculate_iou, max_self, min_self, if_neg hng]
    have hx : b.x + b.width - b.x = b.width := by ring
    have hy : b.y + b.height - b.y = b.height := by ring
    rw [hx, hy]
    have hu : b.width * b.height + b.width * b.height - b.width * b.height
        = b.width * b.height := by ring
    rw [hu, if_pos harea]
    rw [div_self]
    exact_mod_cast ne_of_gt harea
  · intro b1 b2 hsep
    rw [calculate_iou_eq, intersection_area_of_separated b1 b2 hsep]
    by_cases hu : 0 < union_area b1 b2
    · rw [if_pos hu]
      simp
    · rw [if_neg hu]
  · intro b1 b2 hz
    rw [calculate_iou_eq, hz]
    simp

/-- Counterexample to C3: the zero-area box at the origin is identical
to itself, yet its IoU with itself is 0, not 1 (the union area is 0). -/
theorem c3_counterexample :
    calculate_iou ⟨0, 0, 0, 0⟩ ⟨0, 0, 0, 0⟩ ≠ 1 := by
  norm_num [calculate_iou]

/-- Witness for C3: a 10 by 10 box has IoU 1 with itself. -/
theorem c3_witness : calculate_iou ⟨0, 0, 10, 10⟩ ⟨0, 0, 10, 10⟩ = 1 :=
  c3_iou_values.1 ⟨0, 0, 10, 10⟩ (by norm_num) (by norm_num)

/-- C4 (amended): when a YOLO detection's best same-class IoU against
the GPT list strictly exceeds the threshold, the matching phase emits
one merged detection for it: confidence is the weighted sum
`confA * yoloWeight + confB * gptWeight`, each bounding-box coordinate
is the mean of the two boxes truncated toward zero by Python `int()`
(not the exact arithmetic mean), the class comes from the YOLO
detection, and the source is `ensemble`. -/
theorem c4_merge_structure (cfg : Config) (A B : List Det) (a : Det)
    (h0 : 0 ≤ cfg.iouThreshold) (ha : a ∈ A)
    (hbest : cfg.iouThreshold < (findBest a B).1) :
    ∃ b j, (findBest a B).2 = some (b, j)
      ∧ merge_detections cfg a b ∈ mergedPhase cfg A B
      ∧ (merge_detections cfg a b).confidence
          = a.confidence * cfg.yoloWeight + b.confidence * cfg.gptWeight
      ∧ (merge_detections cfg a b).bbox.x = Int.tdiv (a.bbox.x + b.bbox.x) 2
      ∧ (merge_detections cfg a b).bbox.y = Int.tdiv (a.bbox.y + b.bbox.y) 2
      ∧ (merge_detections cfg a b).bbox.width = Int.tdiv (a.bbox.width + b.bbox.width) 2
      ∧ (merge_detections cfg a b).bbox.height
          = Int.tdiv (a.bbox.height + b.bbox.height) 2
      ∧ (merge_detections cfg a b).cls = a.cls
      ∧ (merge_detections cfg a b).source = some "ensemble" := by
  obtain ⟨b, j, hbj⟩ := findBest_pos_some a B (lt_of_le_of_lt h0 hbest)
  have hm : matchOf cfg B a = some (b, j) := (matchOf_eq_some cfg B a (b, j)).mpr ⟨hbest, hbj⟩
  have hp : (a, b, j) ∈ matchedPairs cfg B A := matchedPairs_complete cfg B A a (b, j) ha hm
  refine ⟨b, j, hbj, ?_, rfl, rfl, rfl, rfl, rfl, rfl, rfl⟩
  rw [mergedPhase]
  exact List.mem_map.mpr ⟨(a, b, j), hp, rfl⟩

/-- Counterexample to C4: merging boxes at x = 0 and x = 1 yields a
merged x of `int(0.5) = 0`, while the coordinate-wise arithmetic mean
would be 1/2; the merged confidence is 0.85 * 0.6 + 0.80 * 0.4 = 0.83. -/
theorem c4_counterexample :
    mergedPhase defaultConfig (tagYolo [c4Yolo]) (tagGpt [c4Gpt])
      = [{ cls := "crack", confidence := 83/100, bbox := ⟨0, 0, 10, 10⟩,
           source := some "ensemble", description := none }]
    ∧ ((0 : ℚ) ≠ ((c4Yolo.bbox.x : ℚ) + (c4Gpt.bbox.x : ℚ)) / 2) := by
  constructor
  · norm_num [mergedPhase, matchedPairs, matchOf, findBest, findBestAux, calculate_iou,
      merge_detections, tagYolo, tagGpt, tagSource, defaultConfig, c4Yolo, c4Gpt]
    norm_num [Int.tdiv]
  · norm_num [c4Yolo, c4Gpt]

/-- Witness for C4 at the default configuration with the concrete
overlapping pair (best IoU 9/11 > 0.5). -/
theorem c4_witness :
    ∃ b j, (findBest c4Yolo [c4Gpt]).2 = some (b, j)
      ∧ merge_detections defaultConfig c4Yolo b ∈ mergedPhase defaultConfig [c4Yolo] [c4Gpt]
      ∧ (merge_detections defaultConfig c4Yolo b).confidence
          = c4Yolo.confidence * defaultConfig.yoloWeight
            + b.confidence * defaultConfig.gptWeight
      ∧ (merge_detections defaultConfig c4Yolo b).bbox.x
          = Int.tdiv (c4Yolo.bbox.x + b.bbox.x) 2
      ∧ (merge_detections defaultConfig c4Yolo b).bbox.y
          = Int.tdiv (c4Yolo.bbox.y + b.bbox.y) 2
      ∧ (merge_detections defaultConfig c4Yolo b).bbox.width
          = Int.tdiv (c4Yolo.bbox.width + b.bbox.width) 2
      ∧ (merge_detections defaultConfig c4Yolo b).bbox.height
          = Int.tdiv (c4Yolo.bbox.height + b.bbox.height) 2
      ∧ (merge_detections defaultConfig c4Yolo b).cls = c4Yolo.cls
      ∧ (merge_detections defaultConfig c4Yolo b).source = some "ensemble" :=
  c4_merge_structure defaultConfig [c4Yolo] [c4Gpt] c4Yolo
    (by norm_num [defaultConfig]) (by simp)
    (by norm_num [findBest, findBestAux, calculate_iou, c4Yolo, c4Gpt, defaultConfig])

/-- C2 (amended): `aggregate` of a single YOLO detection with
confidence 0.85 against an empty GPT list returns that detection with
its `source` key overwritten to `'yolo'` and every other field
unchanged; the list equals the input exactly only when the input's
source was already `'yolo'`. -/
theorem c2_single_unmatched (a : Det) (hconf : a.confidence = 85/100) :
    aggregate defaultConfig [a] [] = [tagSource "yolo" a] := by
  norm_num [aggregate, apply_nms, candidatePool, mergedPhase, matchedPairs, matchOf,
    findBest, findBestAux, unmatchedYoloKept, unmatchedGptKept, unmatchedGptAux,
    isMatchedA, tagYolo, tagGpt, tagSource, sortByConfDesc, insertByConf, nmsRounds,
    defaultConfig, retainThreshold, hconf]

/-- Counterexample to C2: `c2Det` carries no source key, and the
returned detection has source `'yolo'`, so the output list is not equal
to the input list. -/
theorem c2_counterexample : aggregate defaultConfig [c2Det] [] ≠ [c2Det] := by
  have h : aggregate defaultConfig [c2Det] [] = [tagSource "yolo" c2Det] := by
    norm_num [aggregate, apply_nms, candidatePool, mergedPhase, matchedPairs, matchOf,
      findBest, findBestAux, unmatchedYoloKept, unmatchedGptKept, unmatchedGptAux,
      isMatchedA, tagYolo, tagGpt, tagSource, sortByConfDesc, insertByConf, nmsRounds,
      defaultConfig, retainThreshold, c2Det]
  rw [h]
  simp [tagSource, c2Det]

/-- Witness for C2 at the concrete detection `c2Det`. -/
theorem c2_witness : aggregate defaultConfig [c2Det] [] = [tagSource "yolo" c2Det] :=
  c2_single_unmatched c2Det rfl

/-- C5: an unmatched YOLO detection enters the candidate pool exactly
when its confidence strictly exceeds 0.7 (first conjunct); every
retained unmatched GPT detection has confidence above 0.7 (second
conjunct) and every unmatched GPT entry with confidence above 0.7 is
retained (third conjunct); and every detection in `aggregate`'s output
is either a merged `ensemble` detection or has confidence strictly
above 0.7, so an unmatched detection with confidence at most 0.7 never
appears in the output (fourth conjunct). -/
theorem c5_unmatched_retention (cfg : Config) (A B : List Det) :
    (∀ a, a ∈ unmatchedYoloKept cfg A B ↔
        a ∈ A ∧ isMatchedA cfg B a = false ∧ retainThreshold < a.confidence)
    ∧ (∀ d, d ∈ unmatchedGptKept cfg A B → retainThreshold < d.confidence)
    ∧ (∀ (j : ℕ) (b : Det), B[j]? = some b → j ∉ matchedGpt cfg A B →
        retainThreshold < b.confidence → b ∈ unmatchedGptKept cfg A B)
    ∧ (∀ d, d ∈ aggregate cfg A B →
        d.source = some "ensemble" ∨ retainThreshold < d.confidence) := by
  refine ⟨unmatchedYoloKept_mem cfg A B, ?_, ?_, aggregate_mem_source_or_conf cfg A B⟩
  · exact fun d => unmatchedGptAux_conf _ B 0 d
  · intro j b hget hnm hconf
    exact unmatchedGptAux_complete _ B 0 j b hget (by simpa using hnm) hconf

/-- Witness for C5: the unmatched GPT detection `c5Gpt` (confidence
0.75) is retained against an empty YOLO list. -/
theorem c5_witness :
    c5Gpt ∈ unmatchedGptKept defaultConfig [] [c5Gpt] :=
  (c5_unmatched_retention defaultConfig [] [c5Gpt]).2.2.1 0 c5Gpt (by simp)
    (by simp [matchedGpt, matchedPairs]) (by norm_num [retainThreshold, c5Gpt])

/-- C7 (amended): `parse_response` returns `[]` on a JSON decode error
and on any non-array top level; when no element of a decoded array
raises inside the loop, elements missing `class`/`confidence`/`bbox` or
with an unknown (or non-string) class are silently dropped and the
remaining formatted detections are returned in order; when some element
raises (for example a null confidence, since `float(None)` raises), the
exception aborts the loop and the whole batch yields `[]`.  Elements
missing a required key, and elements whose class is an unknown string,
are always skipped, never raising. -/
theorem c7_parse_policy :
    parse_response (Except.error ()) = []
    ∧ (∀ j : Json, (∀ l, j ≠ Json.arr l) → parse_response (Except.ok j) = [])
    ∧ (∀ elems : List Json, (∀ j ∈ elems, processElem j ≠ ElemResult.raised) →
        parse_response (Except.ok (Json.arr elems)) = elems.filterMap elemDet)
    ∧ (∀ elems : List Json, (∃ j ∈ elems, processElem j = ElemResult.raised) →
        parse_response (Except.ok (Json.arr elems)) = [])
    ∧ (∀ fields, (objFind fields "class" = none ∨ objFind fields "confidence" = none ∨
          objFind fields "bbox" = none) →
        processElem (Json.obj fields) = ElemResult.skipped)
    ∧ (∀ fields className, objFind fields "class" = some (Json.str className) →
        className ∉ DEFECT_CLASSES → processElem (Json.obj fields) = ElemResult.skipped) := by
  refine ⟨rfl, ?_, ?_, ?_, ?_, ?_⟩
  · intro j hj
    cases j with
    | arr l => exact absurd rfl (hj l)
    | null => rfl
    | bool b => rfl
    | num q => rfl
    | str s => rfl
    | obj fields => rfl
  · intro elems h
    rw [parse_response, runElems_ok elems h]
  · intro elems h
    rw [parse_response, runElems_raised elems h]
  · intro fields h
    simp only [processElem]
    cases hc : objFind fields "class" <;> cases hf : objFind fields "confidence" <;>
      cases hb : objFind fields "bbox" <;> simp_all
  · intro fields className hc hnot
    simp only [processElem]
    rw [hc]
    cases hf : objFind fields "confidence" <;> cases hb : objFind fields "bbox" <;>
      simp [hnot]

/-- Counterexample to C7: with the batch `[c7Drop, c7Good, c7Bad]` the
droppable first element is skipped, the well-formed second element is
formatted, and then the null confidence of the third raises, so the
whole batch — including the well-formed detection the claim says is
kept — collapses to `[]`; without the raising element the well-formed
detection is returned. -/
theorem c7_counterexample :
    parse_response (Except.ok (Json.arr [c7Drop, c7Good, c7Bad])) = []
    ∧ parse_response (Except.ok (Json.arr [c7Drop, c7Good])) = [c7GoodDet] := by
  constructor <;> rfl

/-- Witness for C7: a bare JSON null decodes but is not an array, so
`parse_response` returns the empty list. -/
theorem c7_witness : parse_response (Except.ok Json.null) = [] :=
  c7_parse_policy.2.1 Json.null (fun _ h => nomatch h)
